import Mathlib

set_option maxRecDepth 100000

/-!
# A model of the gitlab-mr-stats synchronization engine

This file is a shallow embedding, in Lean, of the core of the
gitlab-mr-stats repository (src/index.ts and src/database.ts): the two
pagination loops, the change-detection logic of
processAndStoreMergeRequests, the derived first-comment and approval
timestamps, the store access functions, and the SQL aggregation queries.
Theorems about these definitions follow the definitions.

Modelling conventions:
* a network endpoint is a function from page number to the response for
  that page, with a failed request modelled as "Option.none";
* the while loops are given an explicit fuel parameter bounding the
  number of iterations; every theorem supplies enough fuel for the loop
  to stop on its own, so the fuel cutoff is never what ends the walk;
* the JavaScript expression "new Date(s).getTime()" is an abstract
  parameter "getTime : String → Int", and the SQLite expression
  "strftime(percent-s, x)" an abstract parameter "epochOf : String → Int";
* SQLite compares TEXT columns byte by byte; all data involved is ASCII,
  so this is modelled as a character-by-character comparison of the
  character lists of the strings;
* a nullable SQL column is an "Option"; binding a missing JavaScript
  object field (undefined) as a statement parameter stores NULL.
-/

namespace GitlabMrStats

/-- An HTTP page response: the decoded JSON array of items together with
the numeric value of the x-total-pages response header (0 when the
header is absent, matching the fallback string "0" used at
src/index.ts line 91). -/
structure Page (α : Type) where
  items : List α
  totalPages : Nat
deriving DecidableEq

/-- One iteration of the "while (hasMorePages)" loop of
fetchMergeRequests (src/index.ts lines 59 to 111).  "pages p" is the
response to the request for page p, with "none" meaning the request
threw; the try/catch wrapping the whole loop returns the empty list on
any failure.  An empty page stops the walk; otherwise the page is
appended and the walk continues exactly when the reported total-page
count is positive and exceeds the current page, or the page held the
full 100 requested items. -/
def fetchMergeRequestsAux {α : Type} (pages : Nat → Option (Page α)) :
    Nat → Nat → List α → List α
  | 0, _, acc => acc
  | fuel + 1, page, acc =>
    match pages page with
    | none => []
    | some resp =>
      if resp.items.length = 0 then acc
      else
        let acc2 := acc ++ resp.items
        if (0 < resp.totalPages ∧ page < resp.totalPages) ∨
            resp.items.length = 100 then
          fetchMergeRequestsAux pages fuel (page + 1) acc2
        else acc2

/-- The function fetchMergeRequests of src/index.ts: drain the paginated
merge-request collection starting from page 1 with an empty
accumulator. -/
def fetchMergeRequests {α : Type} (pages : Nat → Option (Page α))
    (fuel : Nat) : List α :=
  fetchMergeRequestsAux pages fuel 1 []

/-- A remote collection serving the list L in pages of the requested
size 100: page p holds the items with indices (p-1)*100 up to p*100 - 1,
and every response reports tp as its x-total-pages header. -/
def chunkPage {α : Type} (L : List α) (tp : Nat) : Nat → Page α :=
  fun p => ⟨(L.drop ((p - 1) * 100)).take 100, tp⟩

/-- The same chunked collection, as a never-failing fallible endpoint. -/
def chunkPages {α : Type} (L : List α) (tp : Nat) : Nat → Option (Page α) :=
  fun p => some (chunkPage L tp p)

/-- The notes pagination loop of fetchMergeRequestDetails (src/index.ts
lines 117 to 143).  The per-response x-total-pages header is coerced
with "Number(...) || 1", so an absent or zero header becomes 1; the
items of every visited page are appended unconditionally (there is no
empty-page check and no full-page fallback), and the loop continues
exactly while the page index is below the coerced total-page count. -/
def fetchNotesAux {α : Type} (pages : Nat → Page α) :
    Nat → Nat → List α → List α
  | 0, _, acc => acc
  | fuel + 1, page, acc =>
    let resp := pages page
    let tp := if resp.totalPages = 0 then 1 else resp.totalPages
    let acc2 := acc ++ resp.items
    if page < tp then fetchNotesAux pages fuel (page + 1) acc2 else acc2

/-- The comment-note walk performed inside fetchMergeRequestDetails,
starting from page 1 with an empty accumulator. -/
def fetchMergeRequestDetailsNotes {α : Type} (pages : Nat → Page α)
    (fuel : Nat) : List α :=
  fetchNotesAux pages fuel 1 []

/-- A chunked collection of 200 items whose page 3 request fails, used
to exercise the failure path of the merge-request walk. -/
def failingPages : Nat → Option (Page Nat) :=
  fun p => if p ≤ 2 then some (chunkPage (List.range 200) 3 p) else none

/-- The MergeRequestData interface of src/database.ts: the record
persisted in the merge_requests table for one merge request.  Optional
interface fields are nullable columns. -/
structure MergeRequestData where
  id : Nat
  project_id : Nat
  title : String
  description : Option String
  created_at : String
  updated_at : String
  state : String
  author_id : Nat
  author_username : String
  first_comment_at : Option String
  approved_at : Option String
  merged_at : Option String
  squad : Option String
deriving DecidableEq

/-- The fields of a remote merge-request JSON object that the sync
engine reads (the nested mr.author object flattened into the two fields
the code uses). -/
structure RemoteMergeRequest where
  id : Nat
  iid : Nat
  title : String
  created_at : String
  updated_at : String
  state : String
  author_id : Nat
  author_username : String
  merged_at : Option String
deriving DecidableEq

/-- A comment note as returned by the notes endpoint: its creation
timestamp and its system flag. -/
structure Note where
  created_at : String
  system : Bool
deriving DecidableEq

/-- An approval event as returned by the resource_approval_events
endpoint. -/
structure ApprovalEvent where
  created_at : String
deriving DecidableEq

/-- The value returned by fetchMergeRequestDetails: the drained note
list and the (best-effort) approval event list. -/
structure Details where
  notes : List Note
  approvalEvents : List ApprovalEvent
deriving DecidableEq

/-- Insert an element into a list, in front of the first element it
compares less-or-equal to. -/
def insertLe {α : Type} (le : α → α → Bool) (a : α) : List α → List α
  | [] => [a]
  | b :: bs => if le a b then a :: b :: bs else b :: insertLe le a bs

/-- The JavaScript Array sort on an ascending comparator, modelled as a
stable insertion sort: the result is sorted for the comparator and a
permutation of the input. -/
def sortLe {α : Type} (le : α → α → Bool) : List α → List α
  | [] => []
  | a :: as => insertLe le a (sortLe le as)

/-- The first-comment derivation of processAndStoreMergeRequests
(src/index.ts lines 212 to 223): drop the system notes, sort the rest
ascending by "new Date(created_at).getTime()" (abstracted as getTime),
and take the created_at of the first note; null when no non-system note
exists. -/
def firstCommentAt (getTime : String → Int) (notes : List Note) :
    Option String :=
  if (notes.filter (fun n => !n.system)).length = 0 then none
  else
    ((sortLe (fun a b => getTime a.created_at ≤ getTime b.created_at)
      (notes.filter (fun n => !n.system))).head?).map (fun n => n.created_at)

/-- The approval derivation of processAndStoreMergeRequests
(src/index.ts lines 226 to 236): sort the approval events ascending by
creation time and take the created_at of the earliest; null when there
are no events. -/
def approvedAtOf (getTime : String → Int) (events : List ApprovalEvent) :
    Option String :=
  if events.length = 0 then none
  else
    ((sortLe (fun a b => getTime a.created_at ≤ getTime b.created_at)
      events).head?).map (fun e => e.created_at)

/-- The four outcomes of the per-merge-request decision of
processAndStoreMergeRequests. -/
inductive SyncAction where
  | skipTerminal
  | skipUnchanged
  | update
  | insert
deriving DecidableEq

/-- The reconciliation decision of processAndStoreMergeRequests
(src/index.ts lines 176 to 207) as a function of the stored record (if
any) and the remote merge request: skip when both sides are merged; else
update when the stored updated_at or state differs from the remote one
(the needsUpdate test); else skip as unchanged; insert when no record
was found. -/
def reconcile (existingMR : Option MergeRequestData)
    (mr : RemoteMergeRequest) : SyncAction :=
  match existingMR with
  | some ex =>
    if mr.state = "merged" ∧ ex.state = "merged" then .skipTerminal
    else if ex.updated_at ≠ mr.updated_at ∨ ex.state ≠ mr.state then .update
    else .skipUnchanged
  | none => .insert

/-- Whether the loop iteration calls fetchMergeRequestDetails: exactly
on the update and insert paths, never on the two skip paths. -/
def needsDetails (existingMR : Option MergeRequestData)
    (mr : RemoteMergeRequest) : Bool :=
  match reconcile existingMR mr with
  | .update => true
  | .insert => true
  | _ => false

/-- The record built at src/index.ts lines 239 to 251 and passed to
saveMergeRequest.  The object literal sets neither squad nor
description, so the INSERT OR REPLACE statement of saveMergeRequest
binds both as NULL. -/
def mrDataOf (getTime : String → Int) (projectId : Nat)
    (mr : RemoteMergeRequest) (details : Details) : MergeRequestData where
  id := mr.id
  project_id := projectId
  title := mr.title
  description := none
  created_at := mr.created_at
  updated_at := mr.updated_at
  state := mr.state
  author_id := mr.author_id
  author_username := mr.author_username
  first_comment_at := firstCommentAt getTime details.notes
  approved_at := approvedAtOf getTime details.approvalEvents
  merged_at := mr.merged_at
  squad := none

/-- One iteration of the per-merge-request loop, given the record the
lookup returned and the details the enricher would fetch: none when the
iteration skips (nothing written to the store), some r when
saveMergeRequest is executed with the freshly built record r. -/
def processOne (getTime : String → Int) (projectId : Nat)
    (existingMR : Option MergeRequestData) (mr : RemoteMergeRequest)
    (details : Details) : Option MergeRequestData :=
  if needsDetails existingMR mr then
    some (mrDataOf getTime projectId mr details)
  else none

/-- The function getMergeRequest of src/database.ts (lines 597 to 608):
the outcome of the store point lookup, with a read error caught and
turned into null, and an absent row mapped to null as well. -/
def getMergeRequest (dbResult : Except String (Option MergeRequestData)) :
    Option MergeRequestData :=
  match dbResult with
  | .ok r => r
  | .error _ => none

/-- The batch loop of processAndStoreMergeRequests over a store whose
saves can fail: lookup gives the persisted record found for a remote
merge request, detailsOf the enrichment fetched for it, and saveOk
whether saveMergeRequest succeeds on a record.  A failing save is an
uncaught rejection: the loop stops there and the error propagates.  The
result is the list of records saved so far, in order, paired with
whether the run aborted. -/
def processBatch (getTime : String → Int) (projectId : Nat)
    (lookup : RemoteMergeRequest → Option MergeRequestData)
    (detailsOf : RemoteMergeRequest → Details)
    (saveOk : MergeRequestData → Bool) :
    List RemoteMergeRequest → List MergeRequestData →
      List MergeRequestData × Bool
  | [], saved => (saved, false)
  | mr :: rest, saved =>
    match processOne getTime projectId (lookup mr) mr (detailsOf mr) with
    | none => processBatch getTime projectId lookup detailsOf saveOk rest saved
    | some r =>
      if saveOk r then
        processBatch getTime projectId lookup detailsOf saveOk rest
          (saved ++ [r])
      else (saved, true)

/-- A date parse assigning every string time 0; concrete instances that
do not depend on parsed times use it. -/
def constTime : String → Int := fun _ => 0

/-- A stored record in state opened carrying the externally assigned
classification WEB. -/
def exWebOpened : MergeRequestData where
  id := 1
  project_id := 5
  title := "A"
  description := none
  created_at := "t0"
  updated_at := "t1"
  state := "opened"
  author_id := 7
  author_username := "alice"
  first_comment_at := some "t2"
  approved_at := none
  merged_at := none
  squad := some "WEB"

/-- The same merge request as seen remotely after a change: updated_at
moved from t1 to t9, state still opened. -/
def mrChanged : RemoteMergeRequest where
  id := 1
  iid := 1
  title := "A"
  created_at := "t0"
  updated_at := "t9"
  state := "opened"
  author_id := 7
  author_username := "alice"
  merged_at := none

/-- A stored record already in terminal state merged, with the
classification WEB and derived timestamps set. -/
def exMerged : MergeRequestData where
  id := 1
  project_id := 5
  title := "A"
  description := none
  created_at := "t0"
  updated_at := "t1"
  state := "merged"
  author_id := 7
  author_username := "alice"
  first_comment_at := some "t2"
  approved_at := some "t3"
  merged_at := some "t4"
  squad := some "WEB"

/-- The same merge request as reported remotely with a changed
updated_at and a state other than merged. -/
def mrReopened : RemoteMergeRequest where
  id := 1
  iid := 1
  title := "A"
  created_at := "t0"
  updated_at := "t9"
  state := "reopened"
  author_id := 7
  author_username := "alice"
  merged_at := none

/-- The same merge request as reported remotely still merged but with a
churned updated_at. -/
def mrMergedChurn : RemoteMergeRequest where
  id := 1
  iid := 1
  title := "A"
  created_at := "t0"
  updated_at := "t9"
  state := "merged"
  author_id := 7
  author_username := "alice"
  merged_at := some "t4"

/-- A first remote merge request never seen before. -/
def mrNewA : RemoteMergeRequest where
  id := 1
  iid := 1
  title := "A"
  created_at := "t0"
  updated_at := "t1"
  state := "opened"
  author_id := 7
  author_username := "alice"
  merged_at := none

/-- A second remote merge request never seen before. -/
def mrNewB : RemoteMergeRequest where
  id := 2
  iid := 2
  title := "B"
  created_at := "t0"
  updated_at := "t1"
  state := "opened"
  author_id := 8
  author_username := "bob"
  merged_at := none

/-- The date parse of the two-note example: the timestamp T5 parses
later than the timestamp T1. -/
def exGetTime : String → Int := fun s => if s = "T5" then 5 else 1

/-- A system note at T1 followed by a human note at T5. -/
def exNotes : List Note := [⟨"T1", true⟩, ⟨"T5", false⟩]

/-- SQLite compares TEXT values byte by byte; on the ASCII data at hand
this is a character-by-character lexicographic comparison: true when the
first list is less than or equal to the second. -/
def charListLe : List Char → List Char → Bool
  | [], _ => true
  | _ :: _, [] => false
  | a :: as, b :: bs =>
    if a.toNat < b.toNat then true
    else if b.toNat < a.toNat then false
    else charListLe as bs

/-- The comparison behind the clauses "created_at >= ?" and
"created_at <= ?" of the two queries, on TEXT values. -/
def sqliteStrLe (s t : String) : Bool := charListLe s.data t.data

/-- The SQL expression "(strftime of the end minus strftime of the
start) / 60.0": whole-second difference as fractional minutes, with
epochOf abstracting the strftime epoch conversion. -/
def deltaMinutes (epochOf : String → Int) (startAt endAt : String) : ℚ :=
  ((epochOf endAt - epochOf startAt : Int) : ℚ) / 60

/-- SQLite AVG over the non-NULL values of an expression: NULL when no
row contributes, otherwise the sum divided by the count. -/
def sqlAvg (vals : List ℚ) : Option ℚ :=
  if vals.length = 0 then none else some (vals.sum / (vals.length : ℚ))

/-- The WHERE clause of getMergeRequestStats (src/database.ts lines 622
to 634): project match, state not closed, squad non-null, and the
optional TEXT comparisons of created_at against the date bounds. -/
def statsWhere (projectId : Nat) (startDate endDate : Option String)
    (r : MergeRequestData) : Bool :=
  r.project_id = projectId && r.state ≠ "closed" && r.squad.isSome &&
    (match startDate with
     | none => true
     | some sd => sqliteStrLe sd r.created_at) &&
    (match endDate with
     | none => true
     | some ed => sqliteStrLe r.created_at ed)

/-- GROUP BY squad: the distinct squad values occurring among the
filtered rows. -/
def squadsOf (rows : List MergeRequestData) : List String :=
  (rows.filterMap (fun r => r.squad)).dedup

/-- One output row of getMergeRequestStats. -/
structure StatsRow where
  squad : String
  total_mrs : Nat
  merged_mrs : Nat
  avg_time_to_first_comment : Option ℚ
  avg_time_to_approval : Option ℚ
  avg_time_to_merge : Option ℚ
deriving DecidableEq

/-- The aggregates computed for the group g of rows carrying squad s:
COUNT, the SUM of the merged indicator, and the three AVGs whose CASE
expression is NULL exactly when the respective derived timestamp is
NULL. -/
def statsFor (epochOf : String → Int) (s : String)
    (g : List MergeRequestData) : StatsRow where
  squad := s
  total_mrs := g.length
  merged_mrs := (g.filter (fun r => r.state = "merged")).length
  avg_time_to_first_comment :=
    sqlAvg (g.filterMap (fun r =>
      r.first_comment_at.map (fun te => deltaMinutes epochOf r.created_at te)))
  avg_time_to_approval :=
    sqlAvg (g.filterMap (fun r =>
      r.approved_at.map (fun te => deltaMinutes epochOf r.created_at te)))
  avg_time_to_merge :=
    sqlAvg (g.filterMap (fun r =>
      r.merged_at.map (fun te => deltaMinutes epochOf r.created_at te)))

/-- The query getMergeRequestStats of src/database.ts (lines 610 to 665)
over the table contents rows: filter by the WHERE clause, group the
surviving rows by squad, and aggregate each group. -/
def getMergeRequestStats (epochOf : String → Int)
    (rows : List MergeRequestData) (projectId : Nat)
    (startDate endDate : Option String) : List StatsRow :=
  (squadsOf (rows.filter (statsWhere projectId startDate endDate))).map
    (fun s => statsFor epochOf s
      ((rows.filter (statsWhere projectId startDate endDate)).filter
        (fun r => r.squad = some s)))

/-- The WHERE clause of countMrsWithLateFirstComment (src/database.ts
lines 668 to 700): base filters, non-null first comment, squad non-null,
the optional date bounds, and the strict comparison of the first-comment
delta (in fractional minutes) against the threshold. -/
def lateWhere (epochOf : String → Int) (projectId : Nat)
    (thresholdMinutes : ℚ) (startDate endDate : Option String)
    (r : MergeRequestData) : Bool :=
  r.project_id = projectId && r.state ≠ "closed" &&
    r.first_comment_at.isSome && r.squad.isSome &&
    (match startDate with
     | none => true
     | some sd => sqliteStrLe sd r.created_at) &&
    (match endDate with
     | none => true
     | some ed => sqliteStrLe r.created_at ed) &&
    (match r.first_comment_at with
     | none => false
     | some fc => thresholdMinutes < deltaMinutes epochOf r.created_at fc)

/-- The query countMrsWithLateFirstComment of src/database.ts over the
table contents rows: filter, group by squad, count each group. -/
def countMrsWithLateFirstComment (epochOf : String → Int)
    (rows : List MergeRequestData) (projectId : Nat)
    (thresholdMinutes : ℚ) (startDate endDate : Option String) :
    List (String × Nat) :=
  (squadsOf (rows.filter
      (lateWhere epochOf projectId thresholdMinutes startDate endDate))).map
    (fun s => (s, ((rows.filter
      (lateWhere epochOf projectId thresholdMinutes startDate endDate)).filter
        (fun r => r.squad = some s)).length))

/-- The average the claims stipulate: over the records of g whose
timestamp under sel is non-null, the mean of the whole-second difference
to created_at divided by 60, with no rounding; null when no record
qualifies.  Records with a null timestamp appear in neither the
numerator nor the denominator. -/
def specAvg (epochOf : String → Int)
    (sel : MergeRequestData → Option String)
    (g : List MergeRequestData) : Option ℚ :=
  if g.filterMap (fun r => (sel r).map (fun te =>
      ((epochOf te - epochOf r.created_at : Int) : ℚ) / 60)) = [] then none
  else
    some ((g.filterMap (fun r => (sel r).map (fun te =>
        ((epochOf te - epochOf r.created_at : Int) : ℚ) / 60))).sum /
      ((g.filterMap (fun r => (sel r).map (fun te =>
        ((epochOf te - epochOf r.created_at : Int) : ℚ) / 60))).length : ℚ))

/-- The epoch parse of the three-record average example: the first
comment of the first record comes 600 seconds (10 minutes) after its
creation, that of the third 1800 seconds (30 minutes); every other
string parses to 0. -/
def epochEx : String → Int :=
  fun s => if s = "fc10" then 600 else if s = "fc30" then 1800 else 0

/-- First record of the average example: first-comment delta of 10
minutes. -/
def rDelta10 : MergeRequestData where
  id := 1
  project_id := 1
  title := "A"
  description := none
  created_at := "ca"
  updated_at := "u"
  state := "opened"
  author_id := 7
  author_username := "alice"
  first_comment_at := some "fc10"
  approved_at := none
  merged_at := none
  squad := some "WEB"

/-- Second record of the average example: no first comment. -/
def rDeltaNone : MergeRequestData where
  id := 2
  project_id := 1
  title := "B"
  description := none
  created_at := "cb"
  updated_at := "u"
  state := "opened"
  author_id := 7
  author_username := "alice"
  first_comment_at := none
  approved_at := none
  merged_at := none
  squad := some "WEB"

/-- Third record of the average example: first-comment delta of 30
minutes. -/
def rDelta30 : MergeRequestData where
  id := 3
  project_id := 1
  title := "C"
  description := none
  created_at := "cc"
  updated_at := "u"
  state := "opened"
  author_id := 7
  author_username := "alice"
  first_comment_at := some "fc30"
  approved_at := none
  merged_at := none
  squad := some "WEB"

/-- The three records of the average example, all in the squad WEB. -/
def rowsAvgEx : List MergeRequestData := [rDelta10, rDeltaNone, rDelta30]

/-- The single output row of the stats query over the average example. -/
def avgRowEx : StatsRow :=
  statsFor epochEx "WEB" ((rowsAvgEx.filter (statsWhere 1 none none)).filter
    (fun r => r.squad = some "WEB"))

/-- The epoch parse of the date-bound example: the first comment comes
600 seconds after creation. -/
def epochApr : String → Int :=
  fun s => if s = "2025-04-02T11:00:00Z" then 600 else 0

/-- A record created at 10:00 on 2025-04-02, with a first comment an
hour later, in the squad WEB. -/
def rApr2 : MergeRequestData where
  id := 1
  project_id := 1
  title := "A"
  description := none
  created_at := "2025-04-02T10:00:00Z"
  updated_at := "u"
  state := "opened"
  author_id := 7
  author_username := "alice"
  first_comment_at := some "2025-04-02T11:00:00Z"
  approved_at := none
  merged_at := none
  squad := some "WEB"

end GitlabMrStats

namespace GitlabMrStats

/-- Invariant of the merge-request walk over a chunk-served collection:
arriving at page k with the first (k-1)*100 items accumulated and enough
fuel left, the walk returns exactly the whole collection, whatever
total-page count the responses report. -/
theorem fetchMergeRequestsAux_chunk {α : Type} (L : List α) (tp : Nat) :
    ∀ (fuel k : Nat) (acc : List α), 1 ≤ k →
      L.length + 200 ≤ (fuel + k) * 100 →
      acc = L.take ((k - 1) * 100) →
      fetchMergeRequestsAux (chunkPages L tp) fuel k acc = L := by
  intro fuel
  induction fuel with
  | zero =>
    intro k acc hk hfuel hacc
    have hlen : L.length ≤ (k - 1) * 100 := by omega
    simp [fetchMergeRequestsAux, hacc, List.take_of_length_le hlen]
  | succ fuel ih =>
    intro k acc hk hfuel hacc
    have hlentake : ((L.drop ((k - 1) * 100)).take 100).length
        = min 100 (L.length - (k - 1) * 100) := by
      simp [List.length_take, List.length_drop]
    by_cases hc : ((L.drop ((k - 1) * 100)).take 100).length = 0
    · have hlen : L.length ≤ (k - 1) * 100 := by omega
      simp [fetchMergeRequestsAux, chunkPages, chunkPage, hc, hacc,
        List.take_of_length_le hlen]
    · have hacc2 : acc ++ (L.drop ((k - 1) * 100)).take 100 = L.take (k * 100) := by
        rw [hacc, ← List.take_add]
        congr 1
        omega
      by_cases hcont : (0 < tp ∧ k < tp) ∨
          ((L.drop ((k - 1) * 100)).take 100).length = 100
      · have ihh := ih (k + 1) (L.take (k * 100)) (by omega) (by omega)
          (by norm_num)
        simp only [fetchMergeRequestsAux, chunkPages, chunkPage]
        rw [if_neg hc, if_pos hcont, hacc2, ihh]
      · have hshort : ((L.drop ((k - 1) * 100)).take 100).length ≠ 100 := by
          intro h
          exact hcont (Or.inr h)
        have hlen : L.length ≤ k * 100 := by omega
        simp only [fetchMergeRequestsAux, chunkPages, chunkPage]
        rw [if_neg hc, if_neg hcont, hacc2, List.take_of_length_le hlen]

/-- The merge-request walk drains a chunk-served collection completely,
for any reported total-page count (helper shared by several claims). -/
theorem fetchMergeRequests_chunk_eq {α : Type} (L : List α) (tp fuel : Nat)
    (h : L.length + 200 ≤ fuel * 100) :
    fetchMergeRequests (chunkPages L tp) fuel = L := by
  apply fetchMergeRequestsAux_chunk L tp fuel 1 [] (le_refl 1) (by omega)
  simp

/-- C5: over a collection served with the requested page size, the
merge-request walk (which stops on an empty page and otherwise continues
while the reported total-page count exceeds the current page or the page
was full) returns all items in their original order, whatever total-page
count the responses report; in particular a 250-item collection yields
all 250 items in order both with total-pages reported as 3 and as 0. -/
theorem fetchMergeRequests_complete {α : Type} (L : List α) (tp fuel : Nat)
    (h : L.length + 200 ≤ fuel * 100) :
    fetchMergeRequests (chunkPages L tp) fuel = L :=
  fetchMergeRequests_chunk_eq L tp fuel h

/-- Witness for C5: the 250-item synthetic collection, with total-pages
correctly reported as 3 and misreported as 0. -/
theorem fetchMergeRequests_complete_witness :
    (List.range 250).length + 200 ≤ 5 * 100 ∧
      fetchMergeRequests (chunkPages (List.range 250) 3) 5 = List.range 250 ∧
      fetchMergeRequests (chunkPages (List.range 250) 0) 5 = List.range 250 :=
  ⟨by decide,
    fetchMergeRequests_complete (List.range 250) 3 5 (by decide),
    fetchMergeRequests_complete (List.range 250) 0 5 (by decide)⟩

/-- Invariant of the note walk over a chunk-served collection whose
responses report a positive total-page count tp: arriving at page
k ≤ tp with the first (k-1)*100 items accumulated and enough fuel, the
walk returns the first tp*100 items. -/
theorem fetchNotesAux_chunk {α : Type} (L : List α) (tp : Nat) (htp : 1 ≤ tp) :
    ∀ (fuel k : Nat) (acc : List α), 1 ≤ k → k ≤ tp → tp < fuel + k →
      acc = L.take ((k - 1) * 100) →
      fetchNotesAux (chunkPage L tp) fuel k acc = L.take (tp * 100) := by
  intro fuel
  induction fuel with
  | zero =>
    intro k acc hk hktp hfuel hacc
    omega
  | succ fuel ih =>
    intro k acc hk hktp hfuel hacc
    have hacc2 : acc ++ (L.drop ((k - 1) * 100)).take 100 = L.take (k * 100) := by
      rw [hacc, ← List.take_add]
      congr 1
      omega
    have htp0 : (tp = 0) = False := by simp; omega
    by_cases hcont : k < tp
    · have ihh := ih (k + 1) (L.take (k * 100)) (by omega) (by omega) (by omega)
        (by norm_num)
      simp only [fetchNotesAux, chunkPage, htp0, if_false]
      rw [if_pos hcont, hacc2, ihh]
    · have hk' : k = tp := by omega
      simp only [fetchNotesAux, chunkPage, htp0, if_false]
      rw [if_neg hcont, hacc2, hk']

/-- With a correctly reported positive total-page count, the note walk
also drains a chunk-served collection completely (helper). -/
theorem fetchNotes_chunk_eq {α : Type} (L : List α) (tp fuel : Nat)
    (h1 : 1 ≤ tp) (h2 : tp ≤ fuel) (h3 : L.length ≤ tp * 100) :
    fetchMergeRequestDetailsNotes (chunkPage L tp) fuel = L := by
  rw [fetchMergeRequestDetailsNotes,
    fetchNotesAux_chunk L tp h1 fuel 1 [] (le_refl 1) h1 (by omega) (by simp),
    List.take_of_length_le h3]

/-- C6 (amended): the note walk agrees with the dual-signal
merge-request walk whenever the responses report a correct positive
total-page count covering the whole collection, but it has no
fallback of its own: the equivalence needs the hypothesis on the
reported count, which the merge-request walk does not. -/
theorem notesWalk_eq_mergeRequestWalk (L : List Nat) (tp fuel fuel2 : Nat)
    (h1 : 1 ≤ tp) (h2 : tp ≤ fuel) (h3 : L.length ≤ tp * 100)
    (h4 : L.length + 200 ≤ fuel2 * 100) :
    fetchMergeRequestDetailsNotes (chunkPage L tp) fuel =
      fetchMergeRequests (chunkPages L tp) fuel2 := by
  rw [fetchNotes_chunk_eq L tp fuel h1 h2 h3,
    fetchMergeRequests_chunk_eq L tp fuel2 h4]

/-- Witness for the amended C6: a 250-item collection with total-pages
correctly reported as 3. -/
theorem notesWalk_eq_mergeRequestWalk_witness :
    fetchMergeRequestDetailsNotes (chunkPage (List.range 250) 3) 5 =
      fetchMergeRequests (chunkPages (List.range 250) 3) 5 :=
  notesWalk_eq_mergeRequestWalk (List.range 250) 3 5 5 (by decide) (by decide)
    (by decide) (by decide)

/-- Counterexample to C6 as stated: when the total-page count is
misreported as 0, the note walk (which coerces the count to 1 and has no
full-page fallback) returns only the first 100 of 250 items, while the
dual-signal merge-request walk returns all 250. -/
theorem notesWalk_missing_fallback_cex :
    fetchMergeRequestDetailsNotes (chunkPage (List.range 250) 0) 5 =
        (List.range 250).take 100 ∧
      fetchMergeRequests (chunkPages (List.range 250) 0) 5 = List.range 250 ∧
      (List.range 250).take 100 ≠ List.range 250 := by
  refine ⟨by decide, by decide, by decide⟩

/-- Counterexample to C3 as stated: pages 1 and 2 of the failing
collection succeed and together hold all 200 accumulated items, yet the
walk returns the empty sequence once page 3 fails, rather than the
accumulated items. -/
theorem fetchMergeRequests_failure_discards_cex :
    fetchMergeRequests failingPages 9 = [] ∧
      failingPages 1 = some (chunkPage (List.range 200) 3 1) ∧
      (chunkPage (List.range 200) 3 1).items ++
          (chunkPage (List.range 200) 3 2).items = List.range 200 ∧
      List.range 200 ≠ [] := by
  refine ⟨by decide, by decide, by decide, by decide⟩

/-- C3 (amended): a failed page request makes the merge-request walk
return the empty sequence, discarding whatever was accumulated from
earlier successful pages, rather than raising. -/
theorem fetchMergeRequestsAux_failure_empty {α : Type}
    (pages : Nat → Option (Page α)) (fuel page : Nat) (acc : List α)
    (h : pages page = none) :
    fetchMergeRequestsAux pages (fuel + 1) page acc = [] := by
  simp [fetchMergeRequestsAux, h]

/-- Witness for the amended C3: the walk of the failing collection
reaches page 3 with 200 accumulated items and returns the empty
sequence. -/
theorem fetchMergeRequestsAux_failure_empty_witness :
    failingPages 3 = none ∧
      fetchMergeRequestsAux failingPages 7 3 (List.range 200) = [] :=
  ⟨by decide, fetchMergeRequestsAux_failure_empty failingPages 6 3
    (List.range 200) (by decide)⟩

/-- Counterexample to C1 as stated: the stored record carries the
classification WEB, the remote updated_at changed, so the iteration
takes the update path, and the record it writes back has squad NULL:
the previously stored classification is overwritten. -/
theorem updatePath_nulls_squad_cex :
    reconcile (some exWebOpened) mrChanged = SyncAction.update ∧
      exWebOpened.squad = some "WEB" ∧
      processOne constTime 5 (some exWebOpened) mrChanged ⟨[], []⟩ =
        some (mrDataOf constTime 5 mrChanged ⟨[], []⟩) ∧
      (mrDataOf constTime 5 mrChanged ⟨[], []⟩).squad = none := by
  refine ⟨by decide, by decide, by decide, by decide⟩

/-- C1 (amended): every record an iteration writes has squad NULL, so
the update path does not preserve a stored classification; but a record
just written is found unchanged by the next run against the same remote
record, which therefore writes nothing for it: the second run of a
double sync against an unchanged remote dataset loses nothing further. -/
theorem second_sync_no_write (getTime : String → Int) (projectId : Nat)
    (existingMR : Option MergeRequestData) (mr : RemoteMergeRequest)
    (d d2 : Details) (w : MergeRequestData)
    (h : processOne getTime projectId existingMR mr d = some w) :
    w.squad = none ∧ processOne getTime projectId (some w) mr d2 = none := by
  have hw : w = mrDataOf getTime projectId mr d := by
    by_cases hnd : needsDetails existingMR mr
    · rw [processOne, if_pos hnd] at h
      exact (Option.some_injective _ h).symm
    · rw [processOne, if_neg hnd] at h
      exact absurd h (by simp)
  subst hw
  refine ⟨rfl, ?_⟩
  by_cases hms : mr.state = "merged"
  · simp [processOne, needsDetails, reconcile, mrDataOf, hms]
  · simp [processOne, needsDetails, reconcile, mrDataOf, hms]

/-- Witness for the amended C1: re-processing the record written for the
changed merge request writes nothing. -/
theorem second_sync_no_write_witness :
    (mrDataOf constTime 5 mrChanged ⟨[], []⟩).squad = none ∧
      processOne constTime 5 (some (mrDataOf constTime 5 mrChanged ⟨[], []⟩))
        mrChanged ⟨[], []⟩ = none :=
  second_sync_no_write constTime 5 (some exWebOpened) mrChanged ⟨[], []⟩
    ⟨[], []⟩ (mrDataOf constTime 5 mrChanged ⟨[], []⟩) (by decide)

/-- Counterexample to C2 as stated: the stored record is merged, but the
remote record reports a state other than merged, so the iteration takes
the update path and the enricher is invoked for a locally merged merge
request. -/
theorem merged_reenrich_cex :
    exMerged.state = "merged" ∧
      reconcile (some exMerged) mrReopened = SyncAction.update ∧
      needsDetails (some exMerged) mrReopened = true := by
  refine ⟨rfl, by decide, by decide⟩

/-- C2 (amended): when the stored record and the remote record are both
in state merged, the iteration takes the terminal-skip path: the
enricher is not invoked and nothing is written back, whatever the two
updated_at values are. -/
theorem merged_terminal_skip (ex : MergeRequestData)
    (mr : RemoteMergeRequest) (getTime : String → Int) (projectId : Nat)
    (details : Details) (h1 : ex.state = "merged") (h2 : mr.state = "merged") :
    reconcile (some ex) mr = SyncAction.skipTerminal ∧
      needsDetails (some ex) mr = false ∧
      processOne getTime projectId (some ex) mr details = none := by
  have hr : reconcile (some ex) mr = SyncAction.skipTerminal := by
    simp [reconcile, h1, h2]
  refine ⟨hr, ?_, ?_⟩
  · simp [needsDetails, hr]
  · simp [processOne, needsDetails, hr]

/-- Witness for the amended C2: a stored merged record and a remote
merged record whose updated_at churned from t1 to t9 are skipped without
enrichment or write. -/
theorem merged_terminal_skip_witness :
    reconcile (some exMerged) mrMergedChurn = SyncAction.skipTerminal ∧
      needsDetails (some exMerged) mrMergedChurn = false ∧
      processOne constTime 5 (some exMerged) mrMergedChurn ⟨[], []⟩ = none :=
  merged_terminal_skip exMerged mrMergedChurn constTime 5 ⟨[], []⟩ rfl rfl

/-- Counterexample to C4 as stated: with two new merge requests and a
store rejecting the save of the first record only, the batch returns
having saved nothing and aborted, although on its own the second record
is reconciled and persisted. -/
theorem processBatch_abort_cex :
    processBatch constTime 5 (fun _ => none) (fun _ => ⟨[], []⟩)
        (fun r => r.id ≠ 1) [mrNewA, mrNewB] [] = ([], true) ∧
      processBatch constTime 5 (fun _ => none) (fun _ => ⟨[], []⟩)
        (fun r => r.id ≠ 1) [mrNewB] [] =
        ([mrDataOf constTime 5 mrNewB ⟨[], []⟩], false) := by
  refine ⟨by decide, by decide⟩

/-- C4 (amended): a store failure while persisting one record is
surfaced as an uncaught rejection that aborts the batch on the spot: the
records already saved remain, and no record after the failing one is
reconciled or persisted. -/
theorem processBatch_save_failure_aborts (getTime : String → Int)
    (projectId : Nat) (lookup : RemoteMergeRequest → Option MergeRequestData)
    (detailsOf : RemoteMergeRequest → Details)
    (saveOk : MergeRequestData → Bool) (mr : RemoteMergeRequest)
    (rest : List RemoteMergeRequest) (saved : List MergeRequestData)
    (r : MergeRequestData)
    (hw : processOne getTime projectId (lookup mr) mr (detailsOf mr) = some r)
    (hf : saveOk r = false) :
    processBatch getTime projectId lookup detailsOf saveOk (mr :: rest)
      saved = (saved, true) := by
  simp [processBatch, hw, hf]

/-- Witness for the amended C4: a store refusing every save aborts a
two-element batch at the first record with nothing saved. -/
theorem processBatch_save_failure_aborts_witness :
    processBatch constTime 5 (fun _ => none) (fun _ => ⟨[], []⟩)
        (fun _ => false) [mrNewA, mrNewB] [] = ([], true) :=
  processBatch_save_failure_aborts constTime 5 (fun _ => none)
    (fun _ => ⟨[], []⟩) (fun _ => false) mrNewA [mrNewB] []
    (mrDataOf constTime 5 mrNewA ⟨[], []⟩) (by decide) rfl

/-- C10: a failed store read makes getMergeRequest return null, which
the reconciler cannot tell from an absent record: the merge request is
routed down the insert path, the enricher is consulted, and a fully
rebuilt record (with squad NULL) is written, regardless of what record
actually sits in the store. -/
theorem lookup_failure_insert_path (e : String) (mr : RemoteMergeRequest)
    (getTime : String → Int) (projectId : Nat) (details : Details) :
    getMergeRequest (Except.error e) = none ∧
      reconcile (getMergeRequest (Except.error e)) mr = SyncAction.insert ∧
      needsDetails (getMergeRequest (Except.error e)) mr = true ∧
      processOne getTime projectId (getMergeRequest (Except.error e)) mr
        details = some (mrDataOf getTime projectId mr details) :=
  ⟨rfl, rfl, rfl, rfl⟩

/-- Inserting into a list adds exactly the inserted element to its
members. -/
theorem mem_insertLe {α : Type} (le : α → α → Bool) (a x : α) :
    ∀ l : List α, x ∈ insertLe le a l ↔ x = a ∨ x ∈ l := by
  intro l
  induction l with
  | nil => simp [insertLe]
  | cons b bs ih =>
    by_cases h : le a b = true
    · simp only [insertLe, if_pos h, List.mem_cons]
    · simp only [insertLe, if_neg h, List.mem_cons, ih]
      tauto

/-- For a transitive and total comparator, the sorted version of a
non-empty list starts with an element of the list that the comparator
places below every element of the list. -/
theorem sortLe_head_min {α : Type} (le : α → α → Bool)
    (htrans : ∀ a b c, le a b = true → le b c = true → le a c = true)
    (htot : ∀ a b, le a b = true ∨ le b a = true) :
    ∀ l : List α, l ≠ [] →
      ∃ h t, sortLe le l = h :: t ∧ h ∈ l ∧ ∀ x ∈ l, le h x = true := by
  intro l
  induction l with
  | nil => intro hl; exact absurd rfl hl
  | cons a as ih =>
    intro _
    by_cases has : as = []
    · subst has
      refine ⟨a, [], rfl, List.mem_singleton_self a, ?_⟩
      intro x hx
      rw [List.mem_singleton] at hx
      subst hx
      rcases htot x x with hh | hh <;> exact hh
    · obtain ⟨h, t, hsort, hmem, hmin⟩ := ih has
      have hrw : sortLe le (a :: as) = insertLe le a (h :: t) := by
        rw [sortLe, hsort]
      by_cases hle : le a h = true
      · rw [insertLe, if_pos hle] at hrw
        refine ⟨a, h :: t, hrw, List.mem_cons_self a as, ?_⟩
        intro x hx
        rcases List.mem_cons.mp hx with rfl | hx
        · rcases htot x x with hh | hh <;> exact hh
        · exact htrans a h x hle (hmin x hx)
      · rw [insertLe, if_neg hle] at hrw
        refine ⟨h, insertLe le a t, hrw, List.mem_cons_of_mem a hmem, ?_⟩
        intro x hx
        rcases List.mem_cons.mp hx with rfl | hx
        · rcases htot x h with hh | hh
          · exact absurd hh hle
          · exact hh
        · exact hmin x hx

/-- C7: the derived first_comment_at is null exactly when no non-system
note exists, and otherwise is the created_at of a non-system note whose
parsed time is least among all non-system notes; system notes never
contribute. -/
theorem firstCommentAt_spec (getTime : String → Int) (notes : List Note) :
    (firstCommentAt getTime notes = none ↔
        notes.filter (fun n => !n.system) = []) ∧
      ∀ s, firstCommentAt getTime notes = some s →
        (∃ n ∈ notes.filter (fun n => !n.system), n.created_at = s) ∧
          ∀ n ∈ notes.filter (fun n => !n.system),
            getTime s ≤ getTime n.created_at := by
  by_cases hlen : (notes.filter (fun n => !n.system)).length = 0
  · have hnil : notes.filter (fun n => !n.system) = [] :=
      List.length_eq_zero.mp hlen
    constructor
    · rw [firstCommentAt, if_pos hlen]
      simp [hnil]
    · intro s hs
      rw [firstCommentAt, if_pos hlen] at hs
      exact absurd hs (by simp)
  · have hne : notes.filter (fun n => !n.system) ≠ [] := by
      intro hh
      exact hlen (by rw [hh]; rfl)
    obtain ⟨h, t, hsort, hmem, hmin⟩ :=
      sortLe_head_min (fun a b => getTime a.created_at ≤ getTime b.created_at)
        (fun a b c hab hbc => by
          simp only [decide_eq_true_eq] at hab hbc ⊢
          exact le_trans hab hbc)
        (fun a b => by
          simp only [decide_eq_true_eq]
          exact le_total _ _)
        (notes.filter (fun n => !n.system)) hne
    have hfc : firstCommentAt getTime notes = some h.created_at := by
      rw [firstCommentAt, if_neg hlen, hsort]
      rfl
    constructor
    · rw [hfc]
      exact iff_of_false (by simp) hne
    · intro s hs
      rw [hfc] at hs
      have hsh : h.created_at = s := Option.some_injective _ hs
      subst hsh
      refine ⟨⟨h, hmem, rfl⟩, ?_⟩
      intro n hn
      have := hmin n hn
      simpa only [decide_eq_true_eq] using this

/-- Witness for C7: for a system note at T1 and a human note at T5, the
derived first comment time is T5, and the characterization of
first_comment_at holds at this instance. -/
theorem firstCommentAt_spec_witness :
    firstCommentAt exGetTime exNotes = some "T5" ∧
      ((firstCommentAt exGetTime exNotes = none ↔
          exNotes.filter (fun n => !n.system) = []) ∧
        ∀ s, firstCommentAt exGetTime exNotes = some s →
          (∃ n ∈ exNotes.filter (fun n => !n.system), n.created_at = s) ∧
            ∀ n ∈ exNotes.filter (fun n => !n.system),
              exGetTime s ≤ exGetTime n.created_at) :=
  ⟨by decide, firstCommentAt_spec exGetTime exNotes⟩

/-- SQLite AVG phrased on the list itself rather than its length. -/
theorem sqlAvg_eq (l : List ℚ) :
    sqlAvg l = if l = [] then none else some (l.sum / (l.length : ℚ)) := by
  rw [sqlAvg]
  by_cases h : l = []
  · rw [if_pos h, if_pos (by rw [h]; rfl)]
  · rw [if_neg h, if_neg (fun hh => h (List.length_eq_zero.mp hh))]

/-- C8: every row of the grouped stats aggregation carries, for each of
the three averages, the mean in fractional minutes (whole seconds
divided by 60, no rounding) of the delta between the derived timestamp
and created_at, taken only over the qualifying records of its squad
whose derived timestamp is non-null; records with a null timestamp are
excluded from both numerator and denominator. -/
theorem getMergeRequestStats_avg_spec (epochOf : String → Int)
    (rows : List MergeRequestData) (projectId : Nat)
    (startDate endDate : Option String) (row : StatsRow)
    (hrow : row ∈ getMergeRequestStats epochOf rows projectId
      startDate endDate) :
    row.avg_time_to_first_comment =
        specAvg epochOf (fun r => r.first_comment_at)
          ((rows.filter (statsWhere projectId startDate endDate)).filter
            (fun r => r.squad = some row.squad)) ∧
      row.avg_time_to_approval =
        specAvg epochOf (fun r => r.approved_at)
          ((rows.filter (statsWhere projectId startDate endDate)).filter
            (fun r => r.squad = some row.squad)) ∧
      row.avg_time_to_merge =
        specAvg epochOf (fun r => r.merged_at)
          ((rows.filter (statsWhere projectId startDate endDate)).filter
            (fun r => r.squad = some row.squad)) := by
  rw [getMergeRequestStats] at hrow
  obtain ⟨s, hs, heq⟩ := List.mem_map.mp hrow
  subst heq
  refine ⟨?_, ?_, ?_⟩ <;>
    simp only [statsFor, specAvg, sqlAvg_eq, deltaMinutes]

/-- Witness for C8: over three WEB records with first-comment deltas of
10 minutes, null, and 30 minutes, the average time to first comment of
the single output row is 20 minutes, and the characterization holds at
this instance. -/
theorem getMergeRequestStats_avg_spec_witness :
    avgRowEx ∈ getMergeRequestStats epochEx rowsAvgEx 1 none none ∧
      avgRowEx.avg_time_to_first_comment = some 20 ∧
      avgRowEx.avg_time_to_first_comment =
        specAvg epochEx (fun r => r.first_comment_at)
          ((rowsAvgEx.filter (statsWhere 1 none none)).filter
            (fun r => r.squad = some avgRowEx.squad)) := by
  have hsq : squadsOf (rowsAvgEx.filter (statsWhere 1 none none)) =
      ["WEB"] := by decide
  have hmem : avgRowEx ∈ getMergeRequestStats epochEx rowsAvgEx 1 none none := by
    rw [getMergeRequestStats, hsq]
    simp only [List.map]
    exact List.mem_singleton.mpr rfl
  have hfilter : (rowsAvgEx.filter (statsWhere 1 none none)).filter
      (fun r => r.squad = some "WEB") = [rDelta10, rDeltaNone, rDelta30] := by
    decide
  have hrow : avgRowEx = statsFor epochEx "WEB"
      [rDelta10, rDeltaNone, rDelta30] := by
    unfold avgRowEx
    rw [hfilter]
  have h20 : avgRowEx.avg_time_to_first_comment = some 20 := by
    rw [hrow]
    simp [statsFor, sqlAvg, rDelta10, rDeltaNone, rDelta30, epochEx,
      deltaMinutes]
    norm_num
  exact ⟨hmem, h20,
    (getMergeRequestStats_avg_spec epochEx rowsAvgEx 1 none none avgRowEx
      hmem).1⟩

/-- A list is less than or equal to any extension of itself. -/
theorem charListLe_self_append (s t : List Char) :
    charListLe s (s ++ t) = true := by
  induction s with
  | nil => rfl
  | cons a as ih => simp [charListLe, ih]

/-- A strict extension of a list is never less than or equal to the
list itself. -/
theorem charListLe_append_left_false (s t : List Char) (h : t ≠ []) :
    charListLe (s ++ t) s = false := by
  induction s with
  | nil =>
    cases t with
    | nil => exact absurd rfl h
    | cons b bs => rfl
  | cons a as ih => simp [charListLe, ih]

/-- A string passes the start comparison against any of its own
extensions. -/
theorem sqliteStrLe_self_append (sd tl : String) :
    sqliteStrLe sd (sd ++ tl) = true := by
  rw [sqliteStrLe, String.data_append]
  exact charListLe_self_append sd.data tl.data

/-- A strict extension of a string fails the end comparison against the
string itself. -/
theorem sqliteStrLe_append_left_false (ed tl : String) (h : tl ≠ "") :
    sqliteStrLe (ed ++ tl) ed = false := by
  rw [sqliteStrLe, String.data_append]
  apply charListLe_append_left_false
  intro hh
  apply h
  cases tl with
  | mk d =>
    simp only at hh
    rw [hh]

/-- C9 (amended): an absent bound leaves that side of the filter
unconstrained; the start bound is inclusive in that a record created on
the start date (its created_at extends the date string) passes the
start comparison unchanged; but the end bound is a lexicographic TEXT
comparison, so a record whose created_at strictly extends the end date
string (a record created later in the day on the end date) fails it and
is excluded from both aggregations. -/
theorem dateBounds_spec (epochOf : String → Int) (projectId : Nat)
    (threshold : ℚ) (r : MergeRequestData) (sd ed tl : String)
    (sdo edo : Option String) :
    (statsWhere projectId none none r =
        (r.project_id = projectId && r.state ≠ "closed" &&
          r.squad.isSome)) ∧
      (r.created_at = sd ++ tl →
        statsWhere projectId (some sd) edo r =
            statsWhere projectId none edo r ∧
          lateWhere epochOf projectId threshold (some sd) edo r =
            lateWhere epochOf projectId threshold none edo r) ∧
      (r.created_at = ed ++ tl → tl ≠ "" →
        statsWhere projectId sdo (some ed) r = false ∧
          lateWhere epochOf projectId threshold sdo (some ed) r = false) := by
  refine ⟨?_, ?_, ?_⟩
  · simp [statsWhere]
  · intro hca
    have hle : sqliteStrLe sd r.created_at = true := by
      rw [hca]
      exact sqliteStrLe_self_append sd tl
    constructor
    · simp [statsWhere, hle]
    · simp [lateWhere, hle]
  · intro hca htl
    have hle : sqliteStrLe r.created_at ed = false := by
      rw [hca]
      exact sqliteStrLe_append_left_false ed tl htl
    constructor
    · simp [statsWhere, hle]
    · simp [lateWhere, hle]

/-- Witness for the amended C9: for the record created at 10:00 on
2025-04-02, the start bound 2025-04-02 changes nothing, while the end
bound 2025-04-02 excludes it from both filters. -/
theorem dateBounds_spec_witness :
    (statsWhere 1 (some "2025-04-02") none rApr2 =
        statsWhere 1 none none rApr2) ∧
      statsWhere 1 none (some "2025-04-02") rApr2 = false ∧
      lateWhere epochApr 1 0 none (some "2025-04-02") rApr2 = false :=
  ⟨(dateBounds_spec epochApr 1 0 rApr2 "2025-04-02" "2025-04-02"
      "T10:00:00Z" none none).2.1 (by decide) |>.1,
    (dateBounds_spec epochApr 1 0 rApr2 "2025-04-02" "2025-04-02"
      "T10:00:00Z" none none).2.2 (by decide) (by decide) |>.1,
    (dateBounds_spec epochApr 1 0 rApr2 "2025-04-02" "2025-04-02"
      "T10:00:00Z" none none).2.2 (by decide) (by decide) |>.2⟩

/-- Counterexample to C9 as stated: the record created at 10:00 on the
end date 2025-04-02 is excluded from both aggregations by the end bound,
although with no bound it appears in both. -/
theorem dateBounds_end_exclusive_cex :
    getMergeRequestStats epochApr [rApr2] 1 none (some "2025-04-02") = [] ∧
      countMrsWithLateFirstComment epochApr [rApr2] 1 0 none
        (some "2025-04-02") = [] ∧
      getMergeRequestStats epochApr [rApr2] 1 none none ≠ [] ∧
      countMrsWithLateFirstComment epochApr [rApr2] 1 0 none none ≠ [] := by
  have hedge : sqliteStrLe rApr2.created_at "2025-04-02" = false := by decide
  have hstatse : statsWhere 1 none (some "2025-04-02") rApr2 = false := by
    rw [statsWhere]
    simp [hedge]
  have hlatee : lateWhere epochApr 1 0 none (some "2025-04-02") rApr2 =
      false := by
    rw [lateWhere]
    simp [hedge]
  have hstats : statsWhere 1 none none rApr2 = true := by decide
  have hlate : lateWhere epochApr 1 0 none none rApr2 = true := by
    rw [lateWhere]
    simp [rApr2, epochApr, deltaMinutes]
  refine ⟨?_, ?_, ?_, ?_⟩
  · rw [getMergeRequestStats]
    simp [hstatse, squadsOf]
  · rw [countMrsWithLateFirstComment]
    simp [hlatee, squadsOf]
  · rw [getMergeRequestStats]
    simp [hstats, squadsOf]
    decide
  · rw [countMrsWithLateFirstComment]
    simp [hlate, squadsOf]
    decide

end GitlabMrStats
